import Mathlib

/-!
Verification development for the quota-and-rate-limiting subsystem of the
diploma-backend repository.

Shallow embedding conventions:

* Wall-clock instants are modelled as natural numbers counting UTC seconds.
  Each top-level operation is parameterised by a single instant `now`: the
  source calls `datetime.now(timezone.utc)` several times inside one
  operation, always within the same second for the properties considered
  here.  The strftime bucket strings of
  `RateLimiterRepository._get_rate_limit_key` are modelled as the decimal
  rendering of `now` truncated to the period (division by 60, 3600, 86400),
  which agrees with truncating a UTC timestamp to minute, hour and day
  granularity.
* The ephemeral store (Redis) is a pair of partial maps from string keys to
  naturals (counter values and TTLs).  The client wrapper in
  `src/src/infrastructure/redis_client.py` re-raises every store error, so
  each primitive operation is given an explicit failure oracle: `failAt`
  names the index of the operation (counted by `opIdx`) that raises.  The
  embedding also logs the keys read and written, to state frame properties.
* Machine integers are modelled as `Nat` (counters never go negative in the
  source paths modelled here) and `Int` where the source subtracts
  datetimes.  Python `max(0, limit - current)` on ints coincides with `Nat`
  subtraction `limit - current`.
* Probabilities handled by the ML service are modelled as rationals; only
  order comparisons against the literals 0.4 and 0.7 occur in the source.
-/

/-- Time periods for rate limiting, from `RateLimitPeriod` in
src/src/dtos/rate_limit_dto.py (string enum with values "minute", "hour",
"day"). -/
inductive RateLimitPeriod where
  | minute
  | hour
  | day
deriving DecidableEq, Repr

/-- The `.value` of the Python string enum. -/
def RateLimitPeriod.value : RateLimitPeriod → String
  | .minute => "minute"
  | .hour => "hour"
  | .day => "day"

/-- Decimal digit characters of a natural number, fuel-driven so that the
kernel can evaluate it. -/
def natCharsAux : Nat → Nat → List Char
  | 0, _ => []
  | fuel + 1, n =>
    if n < 10 then [Nat.digitChar n]
    else natCharsAux fuel (n / 10) ++ [Nat.digitChar (n % 10)]

/-- Decimal string of a natural number (digits only, used for time-bucket
components of rate-limit keys). -/
def natStr (n : Nat) : String := String.mk (natCharsAux (n + 1) n)

/-- Truncation of the clock to the time bucket of a period, modelling the
strftime truncations "%Y%m%d%H%M" / "%Y%m%d%H" / "%Y%m%d". -/
def bucketOf (p : RateLimitPeriod) (now : Nat) : Nat :=
  match p with
  | .minute => now / 60
  | .hour => now / 3600
  | .day => now / 86400

/-- `RateLimiterRepository._get_rate_limit_key`:
`f"rate_limit:{user_id}:{period.value}:{time_window}"`. -/
def get_rate_limit_key (user_id : String) (period : RateLimitPeriod) (now : Nat) : String :=
  "rate_limit:" ++ user_id ++ ":" ++ period.value ++ ":" ++ natStr (bucketOf period now)

/-- `RateLimiterRepository._get_ttl_for_period`. -/
def get_ttl_for_period : RateLimitPeriod → Nat
  | .minute => 60
  | .hour => 3600
  | .day => 86400

/-- The rate-limiting fields of `RedisConfig` in src/src/core/redis_config.py
(defaults: enabled, 10 per minute, 100 per hour). -/
structure RedisConfig where
  RATE_LIMIT_ENABLED : Bool
  RATE_LIMIT_PER_MINUTE : Nat
  RATE_LIMIT_PER_HOUR : Nat
deriving DecidableEq, Repr

/-- `RateLimiterRepository._get_limit_for_period`. -/
def get_limit_for_period (cfg : RedisConfig) : RateLimitPeriod → Nat
  | .minute => cfg.RATE_LIMIT_PER_MINUTE
  | .hour => cfg.RATE_LIMIT_PER_HOUR
  | .day => cfg.RATE_LIMIT_PER_HOUR * 24

/-- `RateLimiterRepository._get_reset_time`: the next whole minute / hour /
day, obtained by adding one period and truncating. -/
def get_reset_time (p : RateLimitPeriod) (now : Nat) : Nat :=
  match p with
  | .minute => (now / 60 + 1) * 60
  | .hour => (now / 3600 + 1) * 3600
  | .day => (now / 86400 + 1) * 86400

/-- `RateLimitInfo` dataclass from src/src/dtos/rate_limit_dto.py.
`reset_at` is a UTC instant in seconds. -/
structure RateLimitInfo where
  limit : Nat
  remaining : Nat
  reset_at : Nat
  period : RateLimitPeriod
deriving DecidableEq, Repr

/-- `RateLimitStatus` dataclass from src/src/dtos/rate_limit_dto.py. -/
structure RateLimitStatus where
  user_id : String
  is_allowed : Bool
  minute_limit : RateLimitInfo
  hour_limit : RateLimitInfo
deriving DecidableEq, Repr

/-- Contents of the ephemeral store: counter values and TTLs per key. -/
structure RedisState where
  val : String → Option Nat
  ttl : String → Option Nat

/-- Execution context for store operations: the store contents, the index of
the next operation, the failure oracle (index of the operation that raises,
if any) and logs of the keys read and written. -/
structure RedisCtx where
  st : RedisState
  opIdx : Nat
  failAt : Option Nat
  reads : List String
  writes : List String

/-- Exceptions crossing the rate-limiter service boundary: a propagated store
error, or `RateLimitExceeded` from src/src/dtos/rate_limit_dto.py carrying
`retry_after` and `limit_info`. -/
inductive CcErr where
  | storeError
  | rateLimited (retry_after : Int) (limit_info : RateLimitInfo)
deriving DecidableEq, Repr

/-- Outcome of a store-backed computation: a value or an exception, together
with the context at that point. -/
inductive RLResult (α : Type) where
  | ok (a : α) (c : RedisCtx)
  | err (e : CcErr) (c : RedisCtx)

/-- `RedisClient.get` (src/src/infrastructure/redis_client.py): returns the
stored value or `none`; re-raises store errors. -/
def redis_get (k : String) (c : RedisCtx) : RLResult (Option Nat) :=
  if c.failAt = some c.opIdx then .err .storeError c
  else .ok (c.st.val k) { c with opIdx := c.opIdx + 1, reads := k :: c.reads }

/-- `RedisClient.incr`: atomic increment, returning the new value.
A key that is absent counts as 0. -/
def redis_incr (k : String) (c : RedisCtx) : RLResult Nat :=
  if c.failAt = some c.opIdx then .err .storeError c
  else
    let n := (c.st.val k).getD 0 + 1
    .ok n
      { c with
        st := { c.st with val := fun k2 => if k2 = k then some n else c.st.val k2 }
        opIdx := c.opIdx + 1
        writes := k :: c.writes }

/-- `RedisClient.expire`: sets the TTL of a key. -/
def redis_expire (k : String) (seconds : Nat) (c : RedisCtx) : RLResult Bool :=
  if c.failAt = some c.opIdx then .err .storeError c
  else
    .ok true
      { c with
        st := { c.st with ttl := fun k2 => if k2 = k then some seconds else c.st.ttl k2 }
        opIdx := c.opIdx + 1
        writes := k :: c.writes }

/-- `RedisClient.delete`: removes keys, returning the number that existed. -/
def redis_delete (ks : List String) (c : RedisCtx) : RLResult Nat :=
  if c.failAt = some c.opIdx then .err .storeError c
  else
    .ok (ks.filter (fun k => (c.st.val k).isSome)).length
      { c with
        st :=
          { val := fun k2 => if ks.contains k2 then none else c.st.val k2
            ttl := fun k2 => if ks.contains k2 then none else c.st.ttl k2 }
        opIdx := c.opIdx + 1
        writes := ks ++ c.writes }

/-- `RateLimiterRepository.check_rate_limit`: reads the counter of the active
bucket; `is_allowed = current < limit`, `remaining = max(0, limit - current)`
(which is `Nat` subtraction here), `reset_at` the start of the next bucket. -/
def check_rate_limit (cfg : RedisConfig) (user_id : String) (period : RateLimitPeriod)
    (now : Nat) (c : RedisCtx) : RLResult (Bool × RateLimitInfo) :=
  let key := get_rate_limit_key user_id period now
  let limit := get_limit_for_period cfg period
  match redis_get key c with
  | .err e c1 => .err e c1
  | .ok currentOpt c1 =>
    let current := currentOpt.getD 0
    let is_allowed := decide (current < limit)
    let remaining := limit - current
    let reset_at := get_reset_time period now
    .ok (is_allowed, ⟨limit, remaining, reset_at, period⟩) c1

/-- `RateLimiterRepository.increment_rate_limit`: increments the counter of
the current bucket and sets the TTL when the post-increment value is 1. -/
def increment_rate_limit (user_id : String) (period : RateLimitPeriod) (now : Nat)
    (c : RedisCtx) : RLResult Nat :=
  let key := get_rate_limit_key user_id period now
  let ttl_seconds := get_ttl_for_period period
  match redis_incr key c with
  | .err e c1 => .err e c1
  | .ok count c1 =>
    if count = 1 then
      match redis_expire key ttl_seconds c1 with
      | .err e c2 => .err e c2
      | .ok _ c2 => .ok count c2
    else .ok count c1

/-- `RateLimiterRepository.get_rate_limit_status`: minute and hour checks,
allowed only if both pass. -/
def get_rate_limit_status (cfg : RedisConfig) (user_id : String) (now : Nat)
    (c : RedisCtx) : RLResult RateLimitStatus :=
  match check_rate_limit cfg user_id .minute now c with
  | .err e c1 => .err e c1
  | .ok (minute_allowed, minute_info) c1 =>
    match check_rate_limit cfg user_id .hour now c1 with
    | .err e c2 => .err e c2
    | .ok (hour_allowed, hour_info) c2 =>
      .ok ⟨user_id, minute_allowed && hour_allowed, minute_info, hour_info⟩ c2

/-- `RateLimiterRepository.reset_rate_limits`: deletes the current-bucket
minute, hour and day keys. -/
def reset_rate_limits (user_id : String) (now : Nat) (c : RedisCtx) : RLResult Nat :=
  redis_delete
    [get_rate_limit_key user_id .minute now,
     get_rate_limit_key user_id .hour now,
     get_rate_limit_key user_id .day now] c

/-- `max(1, int((reset_at - now).total_seconds()))` from
`RateLimiterService.check_and_increment`. -/
def retry_after_of (reset_at now : Nat) : Int := max 1 ((reset_at : Int) - (now : Int))

/-- `RateLimiterService.check_and_increment` (src/src/services/
rate_limiter_service.py): permissive dummy status when rate limiting is
disabled; otherwise read status, raise `RateLimitExceeded` when not allowed
(minute info when the minute counter has no remaining quota, else hour
info), and when allowed increment both counters and re-read the status. -/
def check_and_increment (cfg : RedisConfig) (user_id : String) (now : Nat)
    (c : RedisCtx) : RLResult RateLimitStatus :=
  if cfg.RATE_LIMIT_ENABLED = false then
    let dummy_info : RateLimitInfo := ⟨999999, 999999, now, .minute⟩
    .ok ⟨user_id, true, dummy_info, dummy_info⟩ c
  else
    match get_rate_limit_status cfg user_id now c with
    | .err e c1 => .err e c1
    | .ok status c1 =>
      if status.is_allowed = false then
        if status.minute_limit.remaining = 0 then
          .err (.rateLimited (retry_after_of status.minute_limit.reset_at now)
            status.minute_limit) c1
        else
          .err (.rateLimited (retry_after_of status.hour_limit.reset_at now)
            status.hour_limit) c1
      else
        match increment_rate_limit user_id .minute now c1 with
        | .err e c2 => .err e c2
        | .ok _ c2 =>
          match increment_rate_limit user_id .hour now c2 with
          | .err e c3 => .err e c3
          | .ok _ c3 => get_rate_limit_status cfg user_id now c3

/-- Outcome of the HTTP rate-limit gate. -/
inductive GateOutcome where
  | allowed
  | blocked (retry_after : Int) (limit_info : RateLimitInfo)
deriving DecidableEq, Repr

/-- `check_rate_limit_dependency` (src/src/api/dependencies/rate_limit.py):
calls `check_and_increment`; a `RateLimitExceeded` becomes HTTP 429
(blocked); every other exception is swallowed and the request is allowed. -/
def check_rate_limit_dependency (cfg : RedisConfig) (user_id : String) (now : Nat)
    (c : RedisCtx) : GateOutcome × RedisCtx :=
  match check_and_increment cfg user_id now c with
  | .ok _ c1 => (.allowed, c1)
  | .err (.rateLimited ra info) c1 => (.blocked ra info, c1)
  | .err .storeError c1 => (.allowed, c1)

/-- Context reached by a computation, whether it returned or raised. -/
def rlResState {α : Type} : RLResult α → RedisCtx
  | .ok _ c => c
  | .err _ c => c

/-- The returned value of a computation, `none` if it raised. -/
def rlOkVal {α : Type} : RLResult α → Option α
  | .ok a _ => some a
  | .err _ _ => none

/-- Whether a computation raised `RateLimitExceeded`. -/
def rlIsRateLimited {α : Type} : RLResult α → Bool
  | .err (.rateLimited _ _) _ => true
  | _ => false

/-- The `retry_after` of a raised `RateLimitExceeded` (0 otherwise). -/
def rlErrRetryAfter {α : Type} : RLResult α → Int
  | .err (.rateLimited ra _) _ => ra
  | _ => 0

/-- The `limit_info` of a raised `RateLimitExceeded`. -/
def rlErrLimitInfo {α : Type} : RLResult α → Option RateLimitInfo
  | .err (.rateLimited _ info) _ => some info
  | _ => none

/-- The store is untouched at key `k` between two contexts: same counter
value, same TTL, and `k` occurs in the read / write logs of the second
context exactly as often as in the first (no new access). -/
def UnchangedAt (c c1 : RedisCtx) (k : String) : Prop :=
  c1.st.val k = c.st.val k ∧ c1.st.ttl k = c.st.ttl k ∧
    c1.reads.contains k = c.reads.contains k ∧ c1.writes.contains k = c.writes.contains k

/-- `increment_rate_limit` iterated `n` times for one user and period within
a single bucket (requests in quick succession). -/
def iterate_increment (user_id : String) (period : RateLimitPeriod) (now : Nat) :
    Nat → RedisCtx → RLResult Nat
  | 0, c => .ok 0 c
  | n + 1, c =>
    match increment_rate_limit user_id period now c with
    | .err e c1 => .err e c1
    | .ok _ c1 => iterate_increment user_id period now n c1

/-- `UserLimit` row from src/src/models/ai_detection.py, the durable quota
record of the spec.  Datetime columns are UTC instants in seconds. -/
structure UserLimit where
  user_id : String
  daily_limit : Nat
  daily_used : Nat
  daily_reset_at : Nat
  monthly_limit : Nat
  monthly_used : Nat
  monthly_reset_at : Nat
  total_requests : Nat
  is_premium : Bool
deriving DecidableEq, Repr

/-- Seconds in one day and in thirty days (`timedelta(days=1)`,
`timedelta(days=30)`). -/
def oneDay : Nat := 86400

/-- Thirty days in seconds. -/
def thirtyDays : Nat := 30 * 86400

/-- The default row created by
`AIDetectionRepository.get_or_create_user_limit` for a new user. -/
def default_user_limit (user_id : String) (now : Nat) : UserLimit :=
  { user_id := user_id
    daily_limit := 100
    daily_used := 0
    daily_reset_at := now + oneDay
    monthly_limit := 1000
    monthly_used := 0
    monthly_reset_at := now + thirtyDays
    total_requests := 0
    is_premium := false }

/-- `AIDetectionRepository.check_and_reset_limits` (the `apply_resets` of
the spec): zero the used counter and move the reset deadline to `now`
plus one period whenever `now` has reached the deadline.  Returns the row
together with the `updated` flag that gates the flush. -/
def check_and_reset_limits (now : Nat) (u : UserLimit) : UserLimit × Bool :=
  let (u1, upd1) :=
    if u.daily_reset_at ≤ now then
      ({ u with daily_used := 0, daily_reset_at := now + oneDay }, true)
    else (u, false)
  let (u2, upd2) :=
    if u1.monthly_reset_at ≤ now then
      ({ u1 with monthly_used := 0, monthly_reset_at := now + thirtyDays }, true)
    else (u1, upd1)
  (u2, upd2)

/-- The durable store of quota rows, keyed by user id.  An updated row is
consed in front, shadowing the stale one for `List.lookup`. -/
def QuotaDB : Type := List (String × UserLimit)

/-- Row lookup in the durable store. -/
def dbFind (db : QuotaDB) (user_id : String) : Option UserLimit :=
  List.lookup user_id db

/-- Write-back of a row (insert or update). -/
def dbPut (db : QuotaDB) (user_id : String) (u : UserLimit) : QuotaDB :=
  (user_id, u) :: db

/-- `AIDetectionRepository.get_or_create_user_limit`. -/
def get_or_create_user_limit (db : QuotaDB) (user_id : String) (now : Nat) :
    UserLimit × QuotaDB :=
  match dbFind db user_id with
  | some u => (u, db)
  | none =>
    let u := default_user_limit user_id now
    (u, dbPut db user_id u)

/-- `AIDetectionRepository.can_make_request`: get-or-create, apply resets,
then compare the used counters against the limits. -/
def can_make_request (db : QuotaDB) (user_id : String) (now : Nat) :
    (Bool × UserLimit) × QuotaDB :=
  let (u, db1) := get_or_create_user_limit db user_id now
  let (u1, _updated) := check_and_reset_limits now u
  let db2 := dbPut db1 user_id u1
  (( decide (u1.daily_used < u1.daily_limit) && decide (u1.monthly_used < u1.monthly_limit),
     u1), db2)

/-- `AIDetectionRepository.increment_usage`: get-or-create, apply resets,
then add 1 to `daily_used`, `monthly_used` and `total_requests`. -/
def increment_usage (db : QuotaDB) (user_id : String) (now : Nat) :
    UserLimit × QuotaDB :=
  let (u, db1) := get_or_create_user_limit db user_id now
  let (u1, _updated) := check_and_reset_limits now u
  let u2 := { u1 with
    daily_used := u1.daily_used + 1
    monthly_used := u1.monthly_used + 1
    total_requests := u1.total_requests + 1 }
  (u2, dbPut db1 user_id u2)

/-- The used counters visible for a user: (daily_used, monthly_used,
total_requests), all 0 when no row exists (the defaults of a fresh row). -/
def usedCounters (db : QuotaDB) (user_id : String) : Nat × Nat × Nat :=
  match dbFind db user_id with
  | some u => (u.daily_used, u.monthly_used, u.total_requests)
  | none => (0, 0, 0)

/-- Whitespace stripped by Python `str.strip()` for the ASCII range. -/
def isPySpace (ch : Char) : Bool :=
  ch = ' ' || ch = '\t' || ch = '\n' || ch = '\r' || ch = '\x0b' || ch = '\x0c'

/-- Python `text.strip()` on ASCII whitespace. -/
def pyStrip (s : String) : String :=
  String.mk (((s.data.dropWhile isPySpace).reverse.dropWhile isPySpace).reverse)

/-- `AIDetectionModelService.validate_text`: false for empty / all-space
text and for stripped length below 50, true otherwise. -/
def validate_text (text : String) : Bool :=
  if (pyStrip text).length = 0 then false
  else if (pyStrip text).length < 50 then false
  else true

/-- `DetectionResult` values from src/src/dtos/ai_detection_dto.py. -/
inductive DetectionResult where
  | ai_generated
  | human_written
  | uncertain
deriving DecidableEq, Repr

/-- Python `str.lower()`, modelled characterwise (the labels compared
against are ASCII). -/
def pyLower (s : String) : String := String.mk (s.data.map Char.toLower)

/-- `AIDetectionModelService._map_label`: the three recognised label
families, then the probability fallback for an unrecognised label. -/
def map_label (label : String) (ai_probability : Rat) : DetectionResult :=
  let normalized := pyLower label
  if normalized = "ai" ∨ normalized = "ai_generated" ∨ normalized = "artificial" then
    .ai_generated
  else if normalized = "human" ∨ normalized = "human_written" then
    .human_written
  else if normalized = "mixed" ∨ normalized = "uncertain" then
    .uncertain
  else if ai_probability > mkRat 7 10 then .ai_generated
  else if ai_probability < mkRat 4 10 then .human_written
  else .uncertain

/-- The result-resolution step of `AIDetectionModelService.detect_ai_text`
once the response fields are parsed: `label` is `some` exactly when the
extracted label is a string; a present label goes through `_map_label` with
`ai_probability_f or 0.0`, a missing label falls back to the probability
thresholds, and a missing probability then yields uncertain. -/
def detect_result_from_fields (label : Option String) (ai_probability : Option Rat) :
    DetectionResult :=
  match label with
  | some l => map_label l (ai_probability.getD 0)
  | none =>
    match ai_probability with
    | some p =>
      if p > mkRat 7 10 then .ai_generated
      else if p < mkRat 4 10 then .human_written
      else .uncertain
    | none => .uncertain

/-- Whether a label string is one of the families `_map_label` recognises. -/
def recognizedLabel (label : String) : Bool :=
  let normalized := pyLower label
  decide (normalized = "ai" ∨ normalized = "ai_generated" ∨ normalized = "artificial") ||
  decide (normalized = "human" ∨ normalized = "human_written") ||
  decide (normalized = "mixed" ∨ normalized = "uncertain")

/-- Modelled from the spec: the deterministic probability-threshold mapping
of section 4.3 step 6 (probability above 0.7 is AI-generated, below 0.4 is
human-written, otherwise uncertain), used to compare the source behaviour
against the spec wording. -/
def spec_threshold_map (x : Rat) : DetectionResult :=
  if x > mkRat 7 10 then .ai_generated
  else if x < mkRat 4 10 then .human_written
  else .uncertain

/-- Errors raised by `AIDetectionService.detect_from_text`, distinguished by
their message in the source: the quota gate, the 50-character validation,
and a propagated inference failure. -/
inductive DetectErr where
  | quotaExceeded
  | validationError
  | upstreamError
deriving DecidableEq, Repr

/-- `AIDetectionService.detect_from_text` restricted to the state the claims
concern: the quota gate runs first, then text validation, then inference
(an oracle `ml`, `.error` when the collaborator raises); the usage
increment happens only after inference returns. -/
def detect_from_text (db : QuotaDB) (user_id : String) (text : String) (now : Nat)
    (ml : Except Unit (DetectionResult × Rat)) :
    Except DetectErr (DetectionResult × Rat × UserLimit) × QuotaDB :=
  let ((can, _u), db1) := can_make_request db user_id now
  if can = false then (.error .quotaExceeded, db1)
  else if validate_text text = false then (.error .validationError, db1)
  else
    match ml with
    | .error _ => (.error .upstreamError, db1)
    | .ok (result, confidence) =>
      let (u2, db2) := increment_usage db1 user_id now
      (.ok (result, confidence, u2), db2)

/-- The all-empty ephemeral store. -/
def emptyRedisState : RedisState := ⟨fun _ => none, fun _ => none⟩

/-- A fresh, failure-free execution context over the empty store. -/
def ctxEmpty : RedisCtx := ⟨emptyRedisState, 0, none, [], []⟩

/-- The default configuration of src/src/core/redis_config.py. -/
def cfgDefault : RedisConfig := ⟨true, 10, 100⟩

/-- The default configuration with rate limiting switched off. -/
def cfgDisabled : RedisConfig := ⟨false, 10, 100⟩

/-- A context whose first store operation raises. -/
def ctxFailNow : RedisCtx := ⟨emptyRedisState, 0, some 0, [], []⟩

/-- A context in which user "u" has exhausted the default minute limit in
the bucket of instant 0. -/
def ctxMinuteSat : RedisCtx :=
  ⟨⟨fun k => if k = get_rate_limit_key "u" .minute 0 then some 10 else none,
    fun _ => none⟩, 0, none, [], []⟩

/-- A text of 49 characters (already stripped). -/
def txt49 : String := "aaaaaaaaaaaaaaaaaaaaaaaaaaaaaaaaaaaaaaaaaaaaaaaaa"

/-- A quota row whose daily and monthly deadlines are both in the past at
instant 100. -/
def quotaRow0 : UserLimit := ⟨"u", 100, 5, 50, 1000, 7, 80, 12, false⟩

/-- The second-to-last colon-separated segment of a rate-limit key (the
period component), extracted from the reversed character list: bucket
strings are digits only, so the segment before the final colon is the
bucket and the one before it the period. -/
def periodSegOfKey (s : String) : List Char :=
  (((s.data.reverse).dropWhile (fun ch => ch != ':')).drop 1).takeWhile (fun ch => ch != ':')

/-- C3: when the current time has reached a reset deadline, `apply_resets`
(source `check_and_reset_limits`) zeroes the used counter and moves the
deadline to exactly now plus one day (resp. thirty days), not advanced from
the stale deadline; the persist flag is set exactly when at least one reset
fired; and after the call both reset deadlines are strictly in the future. -/
theorem apply_resets_advances_from_now (now : Nat) (u : UserLimit) :
    (u.daily_reset_at ≤ now →
      (check_and_reset_limits now u).1.daily_used = 0 ∧
      (check_and_reset_limits now u).1.daily_reset_at = now + oneDay) ∧
    (u.monthly_reset_at ≤ now →
      (check_and_reset_limits now u).1.monthly_used = 0 ∧
      (check_and_reset_limits now u).1.monthly_reset_at = now + thirtyDays) ∧
    ((check_and_reset_limits now u).2 = true ↔
      (u.daily_reset_at ≤ now ∨ u.monthly_reset_at ≤ now)) ∧
    now < (check_and_reset_limits now u).1.daily_reset_at ∧
    now < (check_and_reset_limits now u).1.monthly_reset_at := by
  simp only [check_and_reset_limits]
  split_ifs with h1 h2 h2 <;> simp_all [oneDay, thirtyDays]

/-- Witness for C3 at instant 100 on a row with both deadlines elapsed. -/
theorem apply_resets_advances_from_now_witness :
    quotaRow0.daily_reset_at ≤ 100 ∧ quotaRow0.monthly_reset_at ≤ 100 ∧
    (check_and_reset_limits 100 quotaRow0).1.daily_used = 0 ∧
    (check_and_reset_limits 100 quotaRow0).1.daily_reset_at = 100 + oneDay ∧
    (check_and_reset_limits 100 quotaRow0).1.monthly_used = 0 ∧
    (check_and_reset_limits 100 quotaRow0).1.monthly_reset_at = 100 + thirtyDays ∧
    (check_and_reset_limits 100 quotaRow0).2 = true :=
  ⟨by decide, by decide,
   ((apply_resets_advances_from_now 100 quotaRow0).1 (by decide)).1,
   ((apply_resets_advances_from_now 100 quotaRow0).1 (by decide)).2,
   ((apply_resets_advances_from_now 100 quotaRow0).2.1 (by decide)).1,
   ((apply_resets_advances_from_now 100 quotaRow0).2.1 (by decide)).2,
   (apply_resets_advances_from_now 100 quotaRow0).2.2.1.mpr (Or.inl (by decide))⟩

/-- C8: `apply_resets` is idempotent; a second call at the same instant
leaves the row unchanged and reports nothing to persist. -/
theorem apply_resets_idempotent (now : Nat) (u : UserLimit) :
    check_and_reset_limits now (check_and_reset_limits now u).1 =
      ((check_and_reset_limits now u).1, false) := by
  simp only [check_and_reset_limits]
  split_ifs with h1 h2 h2 <;> simp_all [oneDay, thirtyDays]

/-- C9: with the RATE_LIMIT_ENABLED flag off, `check_and_increment` returns
a permissive status carrying limit 999999 and remaining 999999 for both the
minute and hour fields, and leaves the execution context untouched: no
store operation is performed (same store, same operation index, same
read and write logs). -/
theorem rate_limiting_disabled_permissive_no_store_access
    (cfg : RedisConfig) (user_id : String) (now : Nat) (c : RedisCtx)
    (hdis : cfg.RATE_LIMIT_ENABLED = false) :
    check_and_increment cfg user_id now c =
      .ok ⟨user_id, true, ⟨999999, 999999, now, .minute⟩,
           ⟨999999, 999999, now, .minute⟩⟩ c := by
  simp [check_and_increment, hdis]

/-- Witness for C9 with rate limiting disabled over the empty store. -/
theorem rate_limiting_disabled_permissive_no_store_access_witness :
    cfgDisabled.RATE_LIMIT_ENABLED = false ∧
    check_and_increment cfgDisabled "u" 5 ctxEmpty =
      .ok ⟨"u", true, ⟨999999, 999999, 5, .minute⟩, ⟨999999, 999999, 5, .minute⟩⟩ ctxEmpty :=
  ⟨rfl, rate_limiting_disabled_permissive_no_store_access cfgDisabled "u" 5 ctxEmpty rfl⟩

/-- C5: the HTTP rate-limit gate fails open.  A store error propagated out
of `check_and_increment` makes the dependency allow the request; the gate
blocks only when `check_and_increment` raised `RateLimitExceeded`; and in
particular when the first store operation raises (with rate limiting
enabled), the request is allowed with the context unchanged. -/
theorem rate_limit_gate_fails_open (cfg : RedisConfig) (user_id : String)
    (now : Nat) (c : RedisCtx) :
    (∀ c1, check_and_increment cfg user_id now c = .err .storeError c1 →
      check_rate_limit_dependency cfg user_id now c = (.allowed, c1)) ∧
    (∀ ra info c1,
      check_rate_limit_dependency cfg user_id now c = (.blocked ra info, c1) →
      check_and_increment cfg user_id now c = .err (.rateLimited ra info) c1) ∧
    (c.failAt = some c.opIdx → cfg.RATE_LIMIT_ENABLED = true →
      check_rate_limit_dependency cfg user_id now c = (.allowed, c)) := by
  refine ⟨?_, ?_, ?_⟩
  · intro c1 h
    simp [check_rate_limit_dependency, h]
  · intro ra info c1 h
    rcases hcc : check_and_increment cfg user_id now c with _ | ⟨e, c2⟩
    · simp [check_rate_limit_dependency, hcc] at h
    · cases e <;> simp_all [check_rate_limit_dependency]
  · intro hfa hen
    simp [check_rate_limit_dependency, check_and_increment, get_rate_limit_status,
      check_rate_limit, redis_get, hen, hfa]

/-- Witness for C5: the very first store read raises and the gate allows. -/
theorem rate_limit_gate_fails_open_witness :
    ctxFailNow.failAt = some ctxFailNow.opIdx ∧
    cfgDefault.RATE_LIMIT_ENABLED = true ∧
    check_rate_limit_dependency cfgDefault "u" 0 ctxFailNow = (.allowed, ctxFailNow) :=
  ⟨rfl, rfl, (rate_limit_gate_fails_open cfgDefault "u" 0 ctxFailNow).2.2 rfl rfl⟩

/-- C7 counterexample: an unrecognized label together with a missing
probability resolves to human-written, not uncertain, because
`detect_ai_text` passes `ai_probability_f or 0.0` to `_map_label` and the
fallback then compares 0.0 against the 0.4 threshold. -/
theorem unrecognized_label_missing_probability_not_uncertain :
    detect_result_from_fields (some "banana") none = DetectionResult.human_written ∧
    detect_result_from_fields (some "banana") none ≠ DetectionResult.uncertain :=
  ⟨by decide, by decide⟩

/-- C7 (amended): for an unrecognized label the result is the threshold
mapping applied to the probability with a missing probability treated as
0.0 (hence human-written); for a missing label the threshold mapping is
applied to a present probability and a missing probability yields
uncertain; an unrecognized label with ai_probability 0.85 resolves to
AI-generated. -/
theorem fallback_threshold_mapping (l : String) (p : Option Rat) (q : Rat)
    (hrec : recognizedLabel l = false) :
    detect_result_from_fields (some l) p = spec_threshold_map (p.getD 0) ∧
    detect_result_from_fields none (some q) = spec_threshold_map q ∧
    detect_result_from_fields none none = DetectionResult.uncertain ∧
    detect_result_from_fields (some l) (some (mkRat 85 100)) = DetectionResult.ai_generated := by
  have h := hrec
  simp only [recognizedLabel, Bool.or_eq_false_iff, decide_eq_false_iff_not] at h
  obtain ⟨⟨h1, h2⟩, h3⟩ := h
  refine ⟨?_, rfl, rfl, ?_⟩
  · simp [detect_result_from_fields, map_label, spec_threshold_map, h1, h2, h3]
  · have h85 : (mkRat 7 10 : Rat) < mkRat 85 100 := by decide
    simp [detect_result_from_fields, map_label, h1, h2, h3, h85]

/-- Witness for the amended C7 at the unrecognized label "banana" with
ai_probability 0.85. -/
theorem fallback_threshold_mapping_witness :
    recognizedLabel "banana" = false ∧
    detect_result_from_fields (some "banana") (some (mkRat 85 100)) = DetectionResult.ai_generated :=
  ⟨by decide, (fallback_threshold_mapping "banana" none 0 (by decide)).2.2.2⟩

/-- Failure-free evaluation of `check_rate_limit`: one store read, the
computed flag and info, and the read logged. -/
theorem check_rate_limit_ok (cfg : RedisConfig) (user_id : String)
    (p : RateLimitPeriod) (now : Nat) (c : RedisCtx) (hfail : c.failAt = none) :
    check_rate_limit cfg user_id p now c =
      .ok (decide ((c.st.val (get_rate_limit_key user_id p now)).getD 0 <
              get_limit_for_period cfg p),
           ⟨get_limit_for_period cfg p,
            get_limit_for_period cfg p -
              (c.st.val (get_rate_limit_key user_id p now)).getD 0,
            get_reset_time p now, p⟩)
        { c with opIdx := c.opIdx + 1,
                 reads := get_rate_limit_key user_id p now :: c.reads } := by
  simp [check_rate_limit, redis_get, hfail]

/-- Failure-free evaluation of `get_rate_limit_status`: two store reads
and the combined status. -/
theorem get_rate_limit_status_ok (cfg : RedisConfig) (user_id : String)
    (now : Nat) (c : RedisCtx) (hfail : c.failAt = none) :
    get_rate_limit_status cfg user_id now c =
      .ok ⟨user_id,
           decide ((c.st.val (get_rate_limit_key user_id .minute now)).getD 0 <
               get_limit_for_period cfg .minute) &&
           decide ((c.st.val (get_rate_limit_key user_id .hour now)).getD 0 <
               get_limit_for_period cfg .hour),
           ⟨get_limit_for_period cfg .minute,
            get_limit_for_period cfg .minute -
              (c.st.val (get_rate_limit_key user_id .minute now)).getD 0,
            get_reset_time .minute now, .minute⟩,
           ⟨get_limit_for_period cfg .hour,
            get_limit_for_period cfg .hour -
              (c.st.val (get_rate_limit_key user_id .hour now)).getD 0,
            get_reset_time .hour now, .hour⟩⟩
        { c with opIdx := c.opIdx + 2,
                 reads := get_rate_limit_key user_id .hour now ::
                   get_rate_limit_key user_id .minute now :: c.reads } := by
  rw [get_rate_limit_status, check_rate_limit_ok cfg user_id .minute now c hfail]
  dsimp only
  rw [check_rate_limit_ok cfg user_id .hour now
    { st := c.st, opIdx := c.opIdx + 1, failAt := c.failAt,
      reads := get_rate_limit_key user_id RateLimitPeriod.minute now :: c.reads,
      writes := c.writes } hfail]

/-- Failure-free evaluation of `redis_incr`. -/
theorem redis_incr_ok (k : String) (c : RedisCtx) (hfail : c.failAt = none) :
    redis_incr k c =
      .ok ((c.st.val k).getD 0 + 1)
        { c with
          st := { c.st with
            val := fun k2 => if k2 = k then some ((c.st.val k).getD 0 + 1)
              else c.st.val k2 }
          opIdx := c.opIdx + 1
          writes := k :: c.writes } := by
  simp [redis_incr, hfail]

/-- Failure-free evaluation of `redis_expire`. -/
theorem redis_expire_ok (k : String) (s : Nat) (c : RedisCtx) (hfail : c.failAt = none) :
    redis_expire k s c =
      .ok true
        { c with
          st := { c.st with
            ttl := fun k2 => if k2 = k then some s else c.st.ttl k2 }
          opIdx := c.opIdx + 1
          writes := k :: c.writes } := by
  simp [redis_expire, hfail]

/-- Failure-free `increment_rate_limit` stores the incremented counter at
the period key and keeps the failure oracle clear. -/
theorem increment_rate_limit_state (user_id : String) (p : RateLimitPeriod)
    (now : Nat) (c : RedisCtx) (hfail : c.failAt = none) :
    (rlResState (increment_rate_limit user_id p now c)).st.val
        (get_rate_limit_key user_id p now) =
      some ((c.st.val (get_rate_limit_key user_id p now)).getD 0 + 1) ∧
    (rlResState (increment_rate_limit user_id p now c)).failAt = none ∧
    rlOkVal (increment_rate_limit user_id p now c) =
      some ((c.st.val (get_rate_limit_key user_id p now)).getD 0 + 1) := by
  simp only [increment_rate_limit]
  rw [redis_incr_ok _ _ hfail]
  dsimp only
  split
  · rw [redis_expire_ok]
    · dsimp only [rlResState, rlOkVal]
      simp_all
    · exact hfail
  · dsimp only [rlResState, rlOkVal]
    simp_all

/-- After `n` failure-free increments within one bucket, the counter has
grown by exactly `n`. -/
theorem iterate_increment_count (user_id : String) (p : RateLimitPeriod) (now : Nat) :
    ∀ (n : Nat) (c : RedisCtx), c.failAt = none →
      ((rlResState (iterate_increment user_id p now n c)).st.val
          (get_rate_limit_key user_id p now)).getD 0 =
        (c.st.val (get_rate_limit_key user_id p now)).getD 0 + n ∧
      (rlResState (iterate_increment user_id p now n c)).failAt = none := by
  intro n
  induction n with
  | zero => intro c hfail; simp [iterate_increment, rlResState, hfail]
  | succ m ih =>
    intro c hfail
    have h := increment_rate_limit_state user_id p now c hfail
    rcases hinc : increment_rate_limit user_id p now c with ⟨a, c1⟩ | ⟨e, c1⟩
    · rw [hinc] at h
      simp only [rlResState] at h
      obtain ⟨hv, hf, _⟩ := h
      have := ih c1 hf
      simp only [iterate_increment, hinc]
      constructor
      · rw [this.1, hv]
        simp
        omega
      · exact this.2
    · rw [hinc] at h
      simp [rlOkVal] at h

/-- C2: `check_rate_limit` returns `is_allowed = (current < limit)` and
`remaining = limit - current` over naturals, which equals
`max(0, limit - current)` over the integers; a fresh (absent) key hence
yields `remaining = limit` with `is_allowed` true for a positive limit, and
after exactly `limit` increments within the same bucket the check returns
`is_allowed = false` and `remaining = 0`. -/
theorem check_rate_limit_window_semantics (cfg : RedisConfig) (user_id : String)
    (p : RateLimitPeriod) (now : Nat) (c : RedisCtx) (hfail : c.failAt = none) :
    rlOkVal (check_rate_limit cfg user_id p now c) =
      some (decide ((c.st.val (get_rate_limit_key user_id p now)).getD 0 <
              get_limit_for_period cfg p),
        ⟨get_limit_for_period cfg p,
         get_limit_for_period cfg p -
           (c.st.val (get_rate_limit_key user_id p now)).getD 0,
         get_reset_time p now, p⟩) ∧
    ((get_limit_for_period cfg p -
        (c.st.val (get_rate_limit_key user_id p now)).getD 0 : Nat) : Int) =
      max 0 ((get_limit_for_period cfg p : Int) -
        ((c.st.val (get_rate_limit_key user_id p now)).getD 0 : Int)) ∧
    (c.st.val (get_rate_limit_key user_id p now) = none →
      0 < get_limit_for_period cfg p →
      rlOkVal (check_rate_limit cfg user_id p now c) =
        some (true, ⟨get_limit_for_period cfg p, get_limit_for_period cfg p,
          get_reset_time p now, p⟩)) ∧
    (c.st.val (get_rate_limit_key user_id p now) = none →
      rlOkVal (check_rate_limit cfg user_id p now
          (rlResState (iterate_increment user_id p now (get_limit_for_period cfg p) c))) =
        some (false, ⟨get_limit_for_period cfg p, 0, get_reset_time p now, p⟩)) := by
  refine ⟨?_, ?_, ?_, ?_⟩
  · rw [check_rate_limit_ok cfg user_id p now c hfail]
    rfl
  · omega
  · intro hnone hpos
    rw [check_rate_limit_ok cfg user_id p now c hfail]
    simp [hnone, hpos, rlOkVal]
  · intro hnone
    have hiter := iterate_increment_count user_id p now (get_limit_for_period cfg p) c hfail
    rw [check_rate_limit_ok cfg user_id p now _ hiter.2]
    rw [rlOkVal]
    have hv := hiter.1
    rw [hnone] at hv
    simp only [Option.getD_none, Nat.zero_add] at hv
    rw [hv]
    simp

/-- Witness for C2 with the default configuration over the empty store. -/
theorem check_rate_limit_window_semantics_witness :
    ctxEmpty.failAt = none ∧
    ctxEmpty.st.val (get_rate_limit_key "u" .minute 0) = none ∧
    0 < get_limit_for_period cfgDefault .minute ∧
    rlOkVal (check_rate_limit cfgDefault "u" .minute 0 ctxEmpty) =
      some (true, ⟨get_limit_for_period cfgDefault .minute,
        get_limit_for_period cfgDefault .minute, get_reset_time .minute 0, .minute⟩) ∧
    rlOkVal (check_rate_limit cfgDefault "u" .minute 0
        (rlResState (iterate_increment "u" .minute 0
          (get_limit_for_period cfgDefault .minute) ctxEmpty))) =
      some (false, ⟨get_limit_for_period cfgDefault .minute, 0, get_reset_time .minute 0, .minute⟩) :=
  ⟨rfl, rfl, by decide,
   (check_rate_limit_window_semantics cfgDefault "u" .minute 0 ctxEmpty rfl).2.2.1 rfl (by decide),
   (check_rate_limit_window_semantics cfgDefault "u" .minute 0 ctxEmpty rfl).2.2.2 rfl⟩

/-- C1: when the pre-check finds the status not allowed (minute or hour
counter at or above its limit), `check_and_increment` raises
`RateLimitExceeded` and leaves the ephemeral store untouched: same counter
values and TTLs (the whole store state is unchanged) and no write
operation was performed. -/
theorem check_and_increment_no_side_effect_on_rejection
    (cfg : RedisConfig) (user_id : String) (now : Nat) (c : RedisCtx)
    (hen : cfg.RATE_LIMIT_ENABLED = true) (hfail : c.failAt = none)
    (hblocked :
      get_limit_for_period cfg .minute ≤
          (c.st.val (get_rate_limit_key user_id .minute now)).getD 0 ∨
      get_limit_for_period cfg .hour ≤
          (c.st.val (get_rate_limit_key user_id .hour now)).getD 0) :
    rlIsRateLimited (check_and_increment cfg user_id now c) = true ∧
    (rlResState (check_and_increment cfg user_id now c)).st = c.st ∧
    (rlResState (check_and_increment cfg user_id now c)).writes = c.writes := by
  have hnotallowed :
      (decide ((c.st.val (get_rate_limit_key user_id .minute now)).getD 0 <
          get_limit_for_period cfg .minute) &&
       decide ((c.st.val (get_rate_limit_key user_id .hour now)).getD 0 <
          get_limit_for_period cfg .hour)) = false := by
    rcases hblocked with h | h <;> simp [Nat.not_lt.mpr h]
  simp only [check_and_increment, hen, Bool.true_eq_false, if_false]
  rw [get_rate_limit_status_ok cfg user_id now c hfail]
  dsimp only
  rw [hnotallowed]
  split_ifs with h1 h2 <;> first | exact ⟨rfl, rfl, rfl⟩ | exact absurd rfl h1

/-- Witness for C1 with the minute counter of user "u" at the limit. -/
theorem check_and_increment_no_side_effect_on_rejection_witness :
    cfgDefault.RATE_LIMIT_ENABLED = true ∧
    ctxMinuteSat.failAt = none ∧
    get_limit_for_period cfgDefault .minute ≤
      (ctxMinuteSat.st.val (get_rate_limit_key "u" .minute 0)).getD 0 ∧
    rlIsRateLimited (check_and_increment cfgDefault "u" 0 ctxMinuteSat) = true ∧
    (rlResState (check_and_increment cfgDefault "u" 0 ctxMinuteSat)).st = ctxMinuteSat.st :=
  ⟨rfl, rfl, by decide,
   (check_and_increment_no_side_effect_on_rejection cfgDefault "u" 0 ctxMinuteSat rfl rfl
     (Or.inl (by decide))).1,
   (check_and_increment_no_side_effect_on_rejection cfgDefault "u" 0 ctxMinuteSat rfl rfl
     (Or.inl (by decide))).2.1⟩

/-- C4: on rejection the raised error has
`retry_after = max(1, reset_at - now)` for the blocking period, hence
always at least 1; the error carries the minute info whenever the minute
limit is exhausted (even if the hour limit is exhausted too), and the hour
info otherwise. -/
theorem rate_limit_exceeded_retry_after_and_tiebreak
    (cfg : RedisConfig) (user_id : String) (now : Nat) (c : RedisCtx)
    (hen : cfg.RATE_LIMIT_ENABLED = true) (hfail : c.failAt = none)
    (hblocked :
      get_limit_for_period cfg .minute ≤
          (c.st.val (get_rate_limit_key user_id .minute now)).getD 0 ∨
      get_limit_for_period cfg .hour ≤
          (c.st.val (get_rate_limit_key user_id .hour now)).getD 0) :
    1 ≤ rlErrRetryAfter (check_and_increment cfg user_id now c) ∧
    (get_limit_for_period cfg .minute ≤
        (c.st.val (get_rate_limit_key user_id .minute now)).getD 0 →
      rlErrLimitInfo (check_and_increment cfg user_id now c) =
        some ⟨get_limit_for_period cfg .minute,
          get_limit_for_period cfg .minute -
            (c.st.val (get_rate_limit_key user_id .minute now)).getD 0,
          get_reset_time .minute now, .minute⟩ ∧
      rlErrRetryAfter (check_and_increment cfg user_id now c) =
        max 1 ((get_reset_time .minute now : Int) - (now : Int))) ∧
    ((c.st.val (get_rate_limit_key user_id .minute now)).getD 0 <
        get_limit_for_period cfg .minute →
      rlErrLimitInfo (check_and_increment cfg user_id now c) =
        some ⟨get_limit_for_period cfg .hour,
          get_limit_for_period cfg .hour -
            (c.st.val (get_rate_limit_key user_id .hour now)).getD 0,
          get_reset_time .hour now, .hour⟩ ∧
      rlErrRetryAfter (check_and_increment cfg user_id now c) =
        max 1 ((get_reset_time .hour now : Int) - (now : Int))) := by
  have hnotallowed :
      (decide ((c.st.val (get_rate_limit_key user_id .minute now)).getD 0 <
          get_limit_for_period cfg .minute) &&
       decide ((c.st.val (get_rate_limit_key user_id .hour now)).getD 0 <
          get_limit_for_period cfg .hour)) = false := by
    rcases hblocked with h | h <;> simp [Nat.not_lt.mpr h]
  simp only [check_and_increment, hen, Bool.true_eq_false, if_false]
  rw [get_rate_limit_status_ok cfg user_id now c hfail]
  dsimp only
  rw [hnotallowed]
  split_ifs with h1 h2
  · refine ⟨le_max_left 1 _, fun _ => ⟨rfl, rfl⟩, fun hlt => absurd hlt (by omega)⟩
  · refine ⟨le_max_left 1 _, fun hle => absurd hle (by omega), fun _ => ⟨rfl, rfl⟩⟩
  · exact absurd rfl h1

/-- Witness for C4 with the minute counter of user "u" at the limit. -/
theorem rate_limit_exceeded_retry_after_and_tiebreak_witness :
    cfgDefault.RATE_LIMIT_ENABLED = true ∧
    ctxMinuteSat.failAt = none ∧
    get_limit_for_period cfgDefault .minute ≤
      (ctxMinuteSat.st.val (get_rate_limit_key "u" .minute 0)).getD 0 ∧
    1 ≤ rlErrRetryAfter (check_and_increment cfgDefault "u" 0 ctxMinuteSat) ∧
    rlErrLimitInfo (check_and_increment cfgDefault "u" 0 ctxMinuteSat) =
      some ⟨get_limit_for_period cfgDefault .minute,
        get_limit_for_period cfgDefault .minute -
          (ctxMinuteSat.st.val (get_rate_limit_key "u" .minute 0)).getD 0,
        get_reset_time .minute 0, .minute⟩ :=
  ⟨rfl, rfl, by decide,
   (rate_limit_exceeded_retry_after_and_tiebreak cfgDefault "u" 0 ctxMinuteSat rfl rfl
     (Or.inl (by decide))).1,
   ((rate_limit_exceeded_retry_after_and_tiebreak cfgDefault "u" 0 ctxMinuteSat rfl rfl
     (Or.inl (by decide))).2.1 (by decide)).1⟩

/-- Text whose stripped length is below 50 fails validation. -/
theorem validate_text_short (text : String) (h : (pyStrip text).length < 50) :
    validate_text text = false := by
  simp only [validate_text]
  split_ifs <;> simp_all

/-- `apply_resets` never increases a used counter and never touches
`total_requests`. -/
theorem resets_do_not_increase (now : Nat) (u : UserLimit) :
    (check_and_reset_limits now u).1.daily_used ≤ u.daily_used ∧
    (check_and_reset_limits now u).1.monthly_used ≤ u.monthly_used ∧
    (check_and_reset_limits now u).1.total_requests = u.total_requests := by
  simp only [check_and_reset_limits]
  split_ifs <;> simp_all

/-- A written-back row shadows the old one. -/
theorem dbFind_dbPut (db : QuotaDB) (user_id : String) (u : UserLimit) :
    dbFind (dbPut db user_id u) user_id = some u := by
  simp [dbFind, dbPut, List.lookup]

/-- The quota gate itself never increments a used counter: after
`can_make_request`, daily and monthly used are at most their prior values
and `total_requests` is unchanged (a freshly created row has zeros). -/
theorem can_make_request_counters (db : QuotaDB) (user_id : String) (now : Nat) :
    (usedCounters (can_make_request db user_id now).2 user_id).1 ≤
      (usedCounters db user_id).1 ∧
    (usedCounters (can_make_request db user_id now).2 user_id).2.1 ≤
      (usedCounters db user_id).2.1 ∧
    (usedCounters (can_make_request db user_id now).2 user_id).2.2 =
      (usedCounters db user_id).2.2 := by
  simp only [can_make_request, get_or_create_user_limit]
  rcases hdb : dbFind db user_id with _ | u
  · simp only [usedCounters, hdb, dbFind_dbPut]
    exact resets_do_not_increase now (default_user_limit user_id now)
  · simp only [usedCounters, hdb, dbFind_dbPut]
    exact resets_do_not_increase now u

/-- C6: for a text whose stripped length is below 50, `detect_from_text`
raises (never returns a result); if the quota gate passes, the error is
the validation error; and in every case neither `daily_used`,
`monthly_used` nor `total_requests` is incremented. -/
theorem short_text_validation_no_increment
    (db : QuotaDB) (user_id text : String) (now : Nat)
    (ml : Except Unit (DetectionResult × Rat))
    (hshort : (pyStrip text).length < 50) :
    (detect_from_text db user_id text now ml).1.isOk = false ∧
    ((can_make_request db user_id now).1.1 = true →
      (detect_from_text db user_id text now ml).1 = .error .validationError) ∧
    (usedCounters (detect_from_text db user_id text now ml).2 user_id).1 ≤
      (usedCounters db user_id).1 ∧
    (usedCounters (detect_from_text db user_id text now ml).2 user_id).2.1 ≤
      (usedCounters db user_id).2.1 ∧
    (usedCounters (detect_from_text db user_id text now ml).2 user_id).2.2 =
      (usedCounters db user_id).2.2 := by
  have hval := validate_text_short text hshort
  have hcnt := can_make_request_counters db user_id now
  rcases hcm : can_make_request db user_id now with ⟨⟨can, u⟩, db1⟩
  rw [hcm] at hcnt
  simp only at hcnt
  cases can
  · simp only [detect_from_text, hcm]
    exact ⟨rfl, by intro h; simp at h, hcnt.1, hcnt.2.1, hcnt.2.2⟩
  · simp only [detect_from_text, hcm, hval]
    exact ⟨rfl, fun _ => rfl, hcnt.1, hcnt.2.1, hcnt.2.2⟩

/-- Witness for C6: a fresh user submitting a 49-character text. -/
theorem short_text_validation_no_increment_witness :
    (pyStrip txt49).length < 50 ∧
    (can_make_request ([] : QuotaDB) "u" 0).1.1 = true ∧
    (detect_from_text ([] : QuotaDB) "u" txt49 0
        (Except.ok (DetectionResult.uncertain, 0))).1 = .error .validationError ∧
    (usedCounters (detect_from_text ([] : QuotaDB) "u" txt49 0
        (Except.ok (DetectionResult.uncertain, 0))).2 "u").2.2 =
      (usedCounters ([] : QuotaDB) "u").2.2 :=
  ⟨by decide, by decide,
   (short_text_validation_no_increment [] "u" txt49 0
     (Except.ok (DetectionResult.uncertain, 0)) (by decide)).2.1 (by decide),
   (short_text_validation_no_increment [] "u" txt49 0
     (Except.ok (DetectionResult.uncertain, 0)) (by decide)).2.2.2.2⟩


/-- Digit characters are never a colon. -/
theorem digitChar_ne_colon (m : Nat) (h : m < 10) : Nat.digitChar m ≠ ':' := by
  interval_cases m <;> decide

/-- Decimal renderings contain no colon. -/
theorem natCharsAux_no_colon (fuel : Nat) :
    ∀ n, ∀ ch ∈ natCharsAux fuel n, ch ≠ ':' := by
  induction fuel with
  | zero => intro n ch hch; simp [natCharsAux] at hch
  | succ f ih =>
    intro n
    simp only [natCharsAux]
    split
    · intro ch hch
      simp only [List.mem_singleton] at hch
      subst hch
      exact digitChar_ne_colon n (by omega)
    · intro ch hch
      rw [List.mem_append] at hch
      rcases hch with hch | hch
      · exact ih (n / 10) ch hch
      · simp only [List.mem_singleton] at hch
        subst hch
        exact digitChar_ne_colon (n % 10) (Nat.mod_lt _ (by omega))

/-- Dropping while a predicate holds skips a prefix that satisfies it. -/
theorem dropWhile_append_all (p : Char → Bool) (a l : List Char)
    (h : ∀ x ∈ a, p x = true) :
    (a ++ l).dropWhile p = l.dropWhile p := by
  induction a with
  | nil => rfl
  | cons x xs ih =>
    simp only [List.cons_append, List.dropWhile_cons, h x (by simp)]
    exact ih (fun y hy => h y (by simp [hy]))

/-- Taking while a predicate holds stops at the first colon. -/
theorem takeWhile_append_stop (p : Char → Bool) (a l : List Char)
    (h : ∀ x ∈ a, p x = true) (hc : p ':' = false) :
    (a ++ ':' :: l).takeWhile p = a := by
  induction a with
  | nil => simp [List.takeWhile_cons, hc]
  | cons x xs ih =>
    simp only [List.cons_append, List.takeWhile_cons, h x (by simp)]
    simp only [if_true]
    rw [ih (fun y hy => h y (by simp [hy]))]

example (s t : String) : (s ++ t).data = s.data ++ t.data := String.data_append s t

theorem no_colon_natStr (n : Nat) :
    ∀ ch ∈ (natStr n).data.reverse, (ch != ':') = true := by
  intro ch hch
  rw [List.mem_reverse] at hch
  exact bne_iff_ne.mpr (natCharsAux_no_colon (n + 1) n ch hch)

theorem no_colon_period_value (p : RateLimitPeriod) :
    ∀ ch ∈ p.value.data.reverse, (ch != ':') = true := by
  cases p <;> decide

/-- The period segment of a generated key is the period string (reversed),
regardless of the user id (which may itself contain colons) and bucket. -/
theorem periodSegOfKey_key (u : String) (p : RateLimitPeriod) (n : Nat) :
    periodSegOfKey (get_rate_limit_key u p n) = p.value.data.reverse := by
  unfold periodSegOfKey get_rate_limit_key
  simp only [String.data_append, List.reverse_append, List.reverse_cons,
    List.reverse_singleton, List.append_assoc, List.singleton_append,
    List.cons_append]
  rw [dropWhile_append_all _ _ _ (no_colon_natStr (bucketOf p n))]
  simp only [List.reverse_nil, List.nil_append]
  rw [List.dropWhile_cons]
  simp only [bne_self_eq_false, Bool.false_eq_true, if_false, List.drop_succ_cons,
    List.drop_zero]
  exact takeWhile_append_stop _ _ _ (no_colon_period_value p) (bne_self_eq_false ':')

/-- A day-period key never coincides with a minute- or hour-period key,
for any pair of users and buckets. -/
theorem day_key_ne (u2 u : String) (n2 n : Nat) (p : RateLimitPeriod)
    (hp : p ≠ .day) :
    get_rate_limit_key u2 .day n2 ≠ get_rate_limit_key u p n := by
  intro h
  have h2 := congrArg periodSegOfKey h
  rw [periodSegOfKey_key, periodSegOfKey_key] at h2
  cases p with
  | minute => exact absurd h2 (by decide)
  | hour => exact absurd h2 (by decide)
  | day => exact hp rfl

/-- `UnchangedAt` is reflexive. -/
theorem unchangedAt_refl (c : RedisCtx) (k : String) : UnchangedAt c c k :=
  ⟨rfl, rfl, rfl, rfl⟩

/-- `UnchangedAt` composes. -/
theorem unchangedAt_trans {c c1 c2 : RedisCtx} {k : String}
    (h1 : UnchangedAt c c1 k) (h2 : UnchangedAt c1 c2 k) : UnchangedAt c c2 k :=
  ⟨h2.1.trans h1.1, h2.2.1.trans h1.2.1, h2.2.2.1.trans h1.2.2.1,
   h2.2.2.2.trans h1.2.2.2⟩

/-- Logging a different key does not change membership of `k`. -/
theorem contains_cons_ne {k k0 : String} (l : List String) (hne : k ≠ k0) :
    (k0 :: l).contains k = l.contains k := by
  simp [List.contains_cons, hne]

/-- `redis_get` touches only its own key. -/
theorem redis_get_unchangedAt (k0 k : String) (c : RedisCtx) (hne : k ≠ k0) :
    UnchangedAt c (rlResState (redis_get k0 c)) k := by
  simp only [redis_get]
  split
  · exact unchangedAt_refl c k
  · exact ⟨rfl, rfl, contains_cons_ne c.reads hne, rfl⟩

/-- `redis_incr` touches only its own key. -/
theorem redis_incr_unchangedAt (k0 k : String) (c : RedisCtx) (hne : k ≠ k0) :
    UnchangedAt c (rlResState (redis_incr k0 c)) k := by
  simp only [redis_incr]
  split
  · exact unchangedAt_refl c k
  · exact ⟨by simp [rlResState, hne], rfl, rfl, contains_cons_ne c.writes hne⟩

/-- `redis_expire` touches only its own key. -/
theorem redis_expire_unchangedAt (k0 k : String) (s : Nat) (c : RedisCtx)
    (hne : k ≠ k0) :
    UnchangedAt c (rlResState (redis_expire k0 s c)) k := by
  simp only [redis_expire]
  split
  · exact unchangedAt_refl c k
  · exact ⟨rfl, by simp [rlResState, hne], rfl, contains_cons_ne c.writes hne⟩

/-- `check_rate_limit` touches only the key of its period. -/
theorem check_rate_limit_unchangedAt (cfg : RedisConfig) (user_id : String)
    (p : RateLimitPeriod) (now : Nat) (k : String) (c : RedisCtx)
    (hne : k ≠ get_rate_limit_key user_id p now) :
    UnchangedAt c (rlResState (check_rate_limit cfg user_id p now c)) k := by
  simp only [check_rate_limit]
  have h := redis_get_unchangedAt (get_rate_limit_key user_id p now) k c hne
  rcases hg : redis_get (get_rate_limit_key user_id p now) c with ⟨a, c1⟩ | ⟨e, c1⟩ <;>
    rw [hg] at h <;> exact h

/-- `get_rate_limit_status` touches only the minute and hour keys. -/
theorem get_rate_limit_status_unchangedAt (cfg : RedisConfig) (user_id : String)
    (now : Nat) (k : String) (c : RedisCtx)
    (hm : k ≠ get_rate_limit_key user_id .minute now)
    (hh : k ≠ get_rate_limit_key user_id .hour now) :
    UnchangedAt c (rlResState (get_rate_limit_status cfg user_id now c)) k := by
  simp only [get_rate_limit_status]
  have h1 := check_rate_limit_unchangedAt cfg user_id .minute now k c hm
  rcases hc1 : check_rate_limit cfg user_id .minute now c with ⟨⟨ma, mi⟩, c1⟩ | ⟨e, c1⟩ <;>
    rw [hc1] at h1
  · dsimp only
    have h2 := check_rate_limit_unchangedAt cfg user_id .hour now k c1 hh
    rcases hc2 : check_rate_limit cfg user_id .hour now c1 with ⟨⟨ha, hi⟩, c2⟩ | ⟨e, c2⟩ <;>
      rw [hc2] at h2 <;> exact unchangedAt_trans h1 h2
  · exact h1

/-- `increment_rate_limit` touches only the key of its period. -/
theorem increment_rate_limit_unchangedAt (user_id : String) (p : RateLimitPeriod)
    (now : Nat) (k : String) (c : RedisCtx)
    (hne : k ≠ get_rate_limit_key user_id p now) :
    UnchangedAt c (rlResState (increment_rate_limit user_id p now c)) k := by
  simp only [increment_rate_limit]
  have h1 := redis_incr_unchangedAt (get_rate_limit_key user_id p now) k c hne
  rcases hi : redis_incr (get_rate_limit_key user_id p now) c with ⟨a, c1⟩ | ⟨e, c1⟩ <;>
    rw [hi] at h1
  · dsimp only
    split
    · have h2 := redis_expire_unchangedAt (get_rate_limit_key user_id p now) k
        (get_ttl_for_period p) c1 hne
      rcases he : redis_expire (get_rate_limit_key user_id p now)
          (get_ttl_for_period p) c1 with ⟨b, c2⟩ | ⟨e, c2⟩ <;>
        rw [he] at h2 <;> exact unchangedAt_trans h1 h2
    · exact h1
  · exact h1

/-- `check_and_increment` touches only the minute and hour keys, in every
outcome (permissive, rejected, incremented, or store failure). -/
theorem check_and_increment_unchangedAt (cfg : RedisConfig) (user_id : String)
    (now : Nat) (k : String) (c : RedisCtx)
    (hm : k ≠ get_rate_limit_key user_id .minute now)
    (hh : k ≠ get_rate_limit_key user_id .hour now) :
    UnchangedAt c (rlResState (check_and_increment cfg user_id now c)) k := by
  simp only [check_and_increment]
  split
  · exact unchangedAt_refl c k
  · have h1 := get_rate_limit_status_unchangedAt cfg user_id now k c hm hh
    rcases hs : get_rate_limit_status cfg user_id now c with ⟨status, c1⟩ | ⟨e, c1⟩ <;>
      rw [hs] at h1
    · dsimp only
      split
      · split <;> exact h1
      · have h2 := increment_rate_limit_unchangedAt user_id .minute now k c1 hm
        rcases hi1 : increment_rate_limit user_id .minute now c1 with ⟨a, c2⟩ | ⟨e, c2⟩ <;>
          rw [hi1] at h2
        · dsimp only
          have h3 := increment_rate_limit_unchangedAt user_id .hour now k c2 hh
          rcases hi2 : increment_rate_limit user_id .hour now c2 with ⟨b, c3⟩ | ⟨e, c3⟩ <;>
            rw [hi2] at h3
          · dsimp only
            have h4 := get_rate_limit_status_unchangedAt cfg user_id now k c3 hm hh
            exact unchangedAt_trans h1 (unchangedAt_trans h2 (unchangedAt_trans h3 h4))
          · exact unchangedAt_trans h1 (unchangedAt_trans h2 h3)
        · exact unchangedAt_trans h1 h2
    · exact h1

/-- C10: the day-period counter key of any user and any bucket is never
read, written, incremented or expired by `check_and_increment`,
`get_rate_limit_status`, or the minute/hour `increment_rate_limit` calls:
its stored value, its TTL, and its occurrence in the read and write logs
are all unchanged. -/
theorem day_key_untouched_by_non_admin_operations
    (cfg : RedisConfig) (user_id : String) (now : Nat) (c : RedisCtx)
    (u2 : String) (n2 : Nat) :
    UnchangedAt c (rlResState (check_and_increment cfg user_id now c))
      (get_rate_limit_key u2 .day n2) ∧
    UnchangedAt c (rlResState (get_rate_limit_status cfg user_id now c))
      (get_rate_limit_key u2 .day n2) ∧
    UnchangedAt c (rlResState (increment_rate_limit user_id .minute now c))
      (get_rate_limit_key u2 .day n2) ∧
    UnchangedAt c (rlResState (increment_rate_limit user_id .hour now c))
      (get_rate_limit_key u2 .day n2) :=
  ⟨check_and_increment_unchangedAt cfg user_id now _ c
      (day_key_ne u2 user_id n2 now .minute (by decide))
      (day_key_ne u2 user_id n2 now .hour (by decide)),
   get_rate_limit_status_unchangedAt cfg user_id now _ c
      (day_key_ne u2 user_id n2 now .minute (by decide))
      (day_key_ne u2 user_id n2 now .hour (by decide)),
   increment_rate_limit_unchangedAt user_id .minute now _ c
      (day_key_ne u2 user_id n2 now .minute (by decide)),
   increment_rate_limit_unchangedAt user_id .hour now _ c
      (day_key_ne u2 user_id n2 now .hour (by decide))⟩
